import Mathlib

set_option maxHeartbeats 1000000

/-!
Verification of the URI (de)serializer in `uri.h` against its
natural-language specification.  The C code is shallowly embedded:
`char *` slots become `Option String` (NULL = `none`), the slot array
becomes a function out of the slot enumeration, and the cursor-based
scanner loops become a structural `scan` function on `List Char`.
The undefined behaviour of `uri_build` on a store whose scheme slot is
NULL (an unguarded `strcpy` from NULL) is modelled by returning `none`.
-/

/-- Slot indices of the component store, mirroring the C enumeration
`uri_element_t` (`URI_END` is only an array bound and is omitted). -/
inductive uri_element_t where
  | BUILD
  | SCHEME
  | USERINFO
  | HOST
  | PORT
  | PATH
  | QUERY
  | FRAGMENT
deriving DecidableEq

open uri_element_t

/-- The component store `uri_t`: eight optional strings indexed by slot,
mirroring `char *data[URI_END]` where NULL models an absent slot. -/
structure uri_t where
  data : uri_element_t → Option String

/-- Mirrors `uri_init` / `calloc`: every slot absent. -/
def uri_init : uri_t := ⟨fun _ => none⟩

/-- Mirrors `uri_set`: copy the incoming text (NULL stays NULL) into slot
`e`, releasing the previous value.  At the value level `copy_string` is the
identity. -/
def uri_set (u : uri_t) (e : uri_element_t) (v : Option String) : uri_t :=
  ⟨fun x => if x = e then v else u.data x⟩

/-- Mirrors `uri_remove`: hand back the current value of the slot and clear the
slot via `uri_set(u, e, NULL)`. -/
def uri_remove (u : uri_t) (e : uri_element_t) : Option String × uri_t :=
  (u.data e, uri_set u e none)

/-- The `strcat` chain of `uri_build` (lines 142-176), given the scheme
string that `strcpy( build, u->data[SCHEME] )` starts from.  Each further
piece is appended only when its governing slot is present, in the fixed
order scheme, authority, path, query, fragment. -/
def build_from (sch : String) (u : uri_t) : String :=
  let b := sch ++ ":"
  let b :=
    match u.data HOST with
    | none => b
    | some hst =>
      let b := b ++ "//"
      let b :=
        match u.data USERINFO with
        | none => b
        | some ui => b ++ ui ++ "@"
      let b := b ++ hst
      match u.data PORT with
      | none => b
      | some pt => b ++ ":" ++ pt
  let b :=
    match u.data PATH with
    | none => b
    | some pa => b ++ pa
  let b :=
    match u.data QUERY with
    | none => b
    | some q => b ++ "?" ++ q
  match u.data FRAGMENT with
  | none => b
  | some fr => b ++ "#" ++ fr

/-- The string produced by `uri_build`.  The C code reads
`u->data[SCHEME]` without a NULL guard; a store with an absent scheme
makes `strcpy` dereference NULL, which the embedding models as `none`. -/
def uri_build_string (u : uri_t) : Option String :=
  match u.data SCHEME with
  | none => none
  | some sch => some (build_from sch u)

/-- Mirrors `uri_build`: rebuild the canonical string from the semantic
slots and store it in the BUILD slot. -/
def uri_build (u : uri_t) : Option uri_t :=
  match uri_build_string u with
  | none => none
  | some b => some (uri_set u BUILD (some b))

/-- Mirrors `uri_get`: force a rebuild, then return a copy of the BUILD
slot, together with the mutated store. -/
def uri_get (u : uri_t) : Option (String × uri_t) :=
  match uri_build u with
  | none => none
  | some u2 =>
    match u2.data BUILD with
    | none => none
    | some c => some (c, u2)

/-- The string returned by `uri_get` (called canonicalString in the spec). -/
def canonicalString (u : uri_t) : Option String :=
  Option.map Prod.fst (uri_get u)

/-- Mirrors `uri_print`: emit the BUILD slot if present, otherwise emit
nothing (`none`).  No rebuild happens. -/
def uri_print_out (u : uri_t) : Option String :=
  u.data BUILD

/-- One `while( *working && !stop(*working) ) working++;` loop of the
parser: split the input into the scanned prefix and the rest, stopping at
the first character satisfying `stop` (or at end-of-input). -/
def scan (stop : Char → Bool) : List Char → List Char × List Char
  | [] => ([], [])
  | c :: cs =>
    if stop c then ([], c :: cs)
    else
      let p := scan stop cs
      (c :: p.1, p.2)

/-- Stop set of the authority scan (uri.h line 216): `@`, `:` or `/`. -/
def authority_stop (c : Char) : Bool := c == '@' || c == ':' || c == '/'

/-- Stop set of the host scan after userinfo (line 227): `:` or `/`. -/
def host_stop (c : Char) : Bool := c == ':' || c == '/'

/-- Stop set of the path scan in authority mode (line 256): `?` or `#`. -/
def path_stop (c : Char) : Bool := c == '?' || c == '#'

/-- Stop set of the query scan (line 277): `#`. -/
def query_stop (c : Char) : Bool := c == '#'

/-- Fragment section of `uri_parse` (lines 287-298): if the cursor sits on
`#`, the whole remainder (delimiter included) becomes FRAGMENT; then
`uri_build` runs and the store is returned. -/
def parse_fragment (u : uri_t) (w : List Char) : Option uri_t :=
  match w with
  | [] => uri_build u
  | d :: _ => uri_build (if d = '#' then uri_set u FRAGMENT (some (String.mk w)) else u)

/-- Query and fragment sections of `uri_parse` (lines 269-298), entered
just after PATH was stored.  On end-of-input the store is returned at once
without building (line 269-270).  If the cursor sits on `?`, the text from
the `?` (delimiter included) up to `#` or end becomes QUERY. -/
def parse_query_fragment (u : uri_t) (w : List Char) : Option uri_t :=
  match w with
  | [] => some u
  | c :: _ =>
    if c = '?' then
      let p := scan query_stop w
      parse_fragment (uri_set u QUERY (some (String.mk p.1))) p.2
    else parse_fragment u w

/-- Path section in authority mode (lines 251-267): return early on
end-of-input, otherwise scan to `?`, `#` or end and store PATH. -/
def parse_path_auth (u : uri_t) (w : List Char) : Option uri_t :=
  match w with
  | [] => some u
  | _ :: _ =>
    let p := scan path_stop w
    parse_query_fragment (uri_set u PATH (some (String.mk p.1))) p.2

/-- Host and port sections (lines 231-248): store HOST from the given
token, return early on end-of-input, parse a PORT after `:` (scanning to
`/` or end), then continue with the path. -/
def parse_host (u : uri_t) (hostTok : List Char) (w : List Char) : Option uri_t :=
  let u1 := uri_set u HOST (some (String.mk hostTok))
  match w with
  | [] => some u1
  | c :: cs =>
    if c = ':' then
      let p := scan (fun d => d == '/') cs
      parse_path_auth (uri_set u1 PORT (some (String.mk p.1))) p.2
    else parse_path_auth u1 w

/-- Authority section (lines 212-233): scan to `@`, `:`, `/` or end; on
`@` the prefix becomes USERINFO and the host is rescanned after the `@`. -/
def parse_authority (u : uri_t) (w : List Char) : Option uri_t :=
  let p1 := scan authority_stop w
  match p1.2 with
  | [] => parse_host u p1.1 []
  | c :: cs =>
    if c = '@' then
      let p2 := scan host_stop cs
      parse_host (uri_set u USERINFO (some (String.mk p1.1))) p2.1 p2.2
    else parse_host u p1.1 p1.2

/-- `uri_parse` on the character list of the input.  The scheme is the
text before the first `:` (no `:` at all fails the parse, line 204-205);
`//` right after the `:` enters authority mode; otherwise the non-authority
branch scans only up to the first `/` (line 261) and stores that prefix as
PATH. -/
def uri_parse_list (l : List Char) : Option uri_t :=
  let p := scan (fun c => c == ':') l
  match p.2 with
  | [] => none
  | _ :: rest =>
    let u := uri_set uri_init SCHEME (some (String.mk p.1))
    if rest.take 2 = ['/', '/'] then parse_authority u (rest.drop 2)
    else
      let p2 := scan (fun c => c == '/') rest
      parse_query_fragment (uri_set u PATH (some (String.mk p2.1))) p2.2

/-- Mirrors `uri_parse` on a string. -/
def uri_parse (s : String) : Option uri_t :=
  uri_parse_list s.data

/-- Reads one slot through a parse result: `none` when the parse failed,
otherwise the (possibly absent) slot contents. -/
def parsed_slot (r : Option uri_t) (e : uri_element_t) : Option (Option String) :=
  match r with
  | none => none
  | some u => some (u.data e)

/-- The predicate delimiting the scheme: true on every character other
than `:`. -/
def not_colon (c : Char) : Bool := c != ':'

/-- Canonical-form formula, written from the concatenation rules of the spec
(spec section 4.3): scheme `:`, then `// [userinfo @] host [: port]` when
host is present, then the path verbatim, then `? query`, then
`# fragment`, each piece only when its slot is present. -/
def canonical_spec (sch : String) (u : uri_t) : String :=
  sch ++ ":"
    ++ (match u.data HOST with
        | none => ""
        | some hst =>
          "//" ++ (match u.data USERINFO with | none => "" | some ui => ui ++ "@")
            ++ hst ++ (match u.data PORT with | none => "" | some pt => ":" ++ pt))
    ++ (match u.data PATH with | none => "" | some pa => pa)
    ++ (match u.data QUERY with | none => "" | some q => "?" ++ q)
    ++ (match u.data FRAGMENT with | none => "" | some fr => "#" ++ fr)

/-- A store with every semantic slot present, for witnesses. -/
def Wfull : uri_t :=
  uri_set (uri_set (uri_set (uri_set (uri_set (uri_set (uri_set uri_init
    SCHEME (some "s")) USERINFO (some "u")) HOST (some "h")) PORT (some "1"))
    PATH (some "p")) QUERY (some "q")) FRAGMENT (some "fr")

/-- The store produced by parsing `http://a/b` (scheme, host and path
populated; the parser returns early at end-of-input after the path, so no
canonical string is cached). -/
def store_ab : uri_t :=
  uri_set (uri_set (uri_set uri_init SCHEME (some "http")) HOST (some "a"))
    PATH (some "/b")

/-- `store_ab` after `set(store, Path, "/c")`. -/
def store_ac : uri_t := uri_set store_ab PATH (some "/c")

/-- A store with scheme and path present, for the frame witness. -/
def W8 : uri_t := uri_set (uri_set uri_init SCHEME (some "a")) PATH (some "/b")

/-- The store produced by parsing `s://h/p?q` (this parse does reach the
query section, so its BUILD slot is populated). -/
def W2 : uri_t := (uri_parse "s://h/p?q").getD uri_init

/-! Section: Basic string and slot lemmas -/

theorem str_ext : ∀ (a b : String), a.data = b.data → a = b
  | ⟨_⟩, ⟨_⟩, h => by cases h; rfl

theorem str_data_append : ∀ (a b : String), (a ++ b).data = a.data ++ b.data
  | ⟨_⟩, ⟨_⟩ => rfl

theorem uri_set_data (u : uri_t) (e : uri_element_t) (v : Option String)
    (x : uri_element_t) : (uri_set u e v).data x = if x = e then v else u.data x := rfl

theorem uri_set_same (u : uri_t) (e : uri_element_t) (v : Option String) :
    (uri_set u e v).data e = v := by simp [uri_set_data]

theorem uri_set_other (u : uri_t) (e : uri_element_t) (v : Option String)
    (x : uri_element_t) (h : x ≠ e) : (uri_set u e v).data x = u.data x := by
  simp [uri_set_data, h]

/-! Section: Scan lemmas -/

theorem scan_split (p : Char → Bool) : ∀ l : List Char, (scan p l).1 ++ (scan p l).2 = l
  | [] => rfl
  | c :: cs => by
    simp only [scan]
    cases h : p c with
    | true => simp
    | false => simp [scan_split p cs]

theorem scan_no_stop (p : Char → Bool) : ∀ a : List Char,
    (∀ c ∈ a, p c = false) → scan p a = (a, [])
  | [], _ => rfl
  | c :: cs, ha => by
    have hc : p c = false := ha c (by simp)
    simp only [scan, hc]
    simp [scan_no_stop p cs (fun x hx => ha x (by simp [hx]))]

theorem scan_append_stop (p : Char → Bool) (c : Char) (b : List Char) :
    ∀ a : List Char, (∀ x ∈ a, p x = false) → p c = true →
      scan p (a ++ c :: b) = (a, c :: b)
  | [], _, hc => by simp [scan, hc]
  | x :: xs, ha, hc => by
    have hx : p x = false := ha x (by simp)
    simp only [List.cons_append, scan, hx]
    simp [scan_append_stop p c b xs (fun y hy => ha y (by simp [hy])) hc]

theorem scan_snd_nil_iff (p : Char → Bool) : ∀ l : List Char,
    (scan p l).2 = [] ↔ ∀ c ∈ l, p c = false
  | [] => by simp [scan]
  | c :: cs => by
    simp only [scan]
    cases h : p c with
    | true => simp [h]
    | false =>
      simp only [Bool.false_eq_true, if_false]
      simpa [h] using scan_snd_nil_iff p cs

theorem scan_snd_head (p : Char → Bool) : ∀ (l : List Char) (c : Char) (r : List Char),
    (scan p l).2 = c :: r → p c = true
  | [], c, r, h => by simp [scan] at h
  | x :: xs, c, r, h => by
    simp only [scan] at h
    cases hx : p x with
    | true => simp [hx] at h; rw [← h.1]; exact hx
    | false =>
      simp only [hx, Bool.false_eq_true, if_false] at h
      exact scan_snd_head p xs c r h

theorem scan_fst_takeWhile (p : Char → Bool) : ∀ l : List Char,
    (scan p l).1 = l.takeWhile (fun c => !(p c))
  | [] => rfl
  | c :: cs => by
    simp only [scan, List.takeWhile]
    cases h : p c with
    | true => simp [h]
    | false => simp [h, scan_fst_takeWhile p cs]

/-! Section: Builder lemmas -/

theorem build_from_set_build (sch : String) (u : uri_t) (v : Option String) :
    build_from sch (uri_set u BUILD v) = build_from sch u := rfl

theorem uri_build_string_set_build (u : uri_t) (v : Option String) :
    uri_build_string (uri_set u BUILD v) = uri_build_string u := rfl

theorem uri_build_eq (u : uri_t) (x : String) (h : u.data SCHEME = some x) :
    uri_build u = some (uri_set u BUILD (some (build_from x u))) := by
  unfold uri_build uri_build_string
  rw [h]

theorem uri_build_none (u : uri_t) (h : u.data SCHEME = none) :
    uri_build u = none := by
  unfold uri_build uri_build_string
  rw [h]

theorem uri_build_inv (u u2 : uri_t) (h : uri_build u = some u2) :
    u2.data BUILD = uri_build_string u2 := by
  unfold uri_build at h
  cases hb : uri_build_string u with
  | none => rw [hb] at h; exact absurd h (by simp)
  | some b =>
    rw [hb] at h
    simp only [Option.some.injEq] at h
    rw [← h, uri_set_same, uri_build_string_set_build, hb]

theorem uri_build_scheme (u u2 : uri_t) (h : uri_build u = some u2) :
    u2.data SCHEME = u.data SCHEME := by
  unfold uri_build at h
  cases hb : uri_build_string u with
  | none => rw [hb] at h; exact absurd h (by simp)
  | some b =>
    rw [hb] at h
    simp only [Option.some.injEq] at h
    rw [← h]
    exact uri_set_other _ _ _ _ (by simp)

/-! Section: The BUILD slot along each parser stage -/

theorem parse_fragment_build (u u2 : uri_t) (w : List Char)
    (h : parse_fragment u w = some u2) : u2.data BUILD = uri_build_string u2 := by
  unfold parse_fragment at h
  cases w with
  | nil => exact uri_build_inv _ _ h
  | cons d rest => exact uri_build_inv _ _ h

theorem parse_query_fragment_build (u u2 : uri_t) (w : List Char)
    (h : parse_query_fragment u w = some u2) :
    u2.data BUILD = u.data BUILD ∨ u2.data BUILD = uri_build_string u2 := by
  unfold parse_query_fragment at h
  cases w with
  | nil =>
    simp only [Option.some.injEq] at h
    exact Or.inl (by rw [← h])
  | cons c rest =>
    by_cases hc : c = '?' <;> simp only [hc, if_true, if_false] at h
    · exact Or.inr (parse_fragment_build _ _ _ h)
    · exact Or.inr (parse_fragment_build _ _ _ h)

theorem parse_path_auth_build (u u2 : uri_t) (w : List Char)
    (h : parse_path_auth u w = some u2) :
    u2.data BUILD = u.data BUILD ∨ u2.data BUILD = uri_build_string u2 := by
  unfold parse_path_auth at h
  cases w with
  | nil =>
    simp only [Option.some.injEq] at h
    exact Or.inl (by rw [← h])
  | cons c rest =>
    rcases parse_query_fragment_build _ _ _ h with h1 | h1
    · exact Or.inl (by rw [h1, uri_set_other _ _ _ _ (by simp)])
    · exact Or.inr h1

theorem parse_host_build (u u2 : uri_t) (t w : List Char)
    (h : parse_host u t w = some u2) :
    u2.data BUILD = u.data BUILD ∨ u2.data BUILD = uri_build_string u2 := by
  unfold parse_host at h
  cases w with
  | nil =>
    simp only [Option.some.injEq] at h
    exact Or.inl (by rw [← h, uri_set_other _ _ _ _ (by simp)])
  | cons c cs =>
    by_cases hc : c = ':' <;> simp only [hc, if_true, if_false] at h
    · rcases parse_path_auth_build _ _ _ h with h1 | h1
      · exact Or.inl (by
          rw [h1, uri_set_other _ _ _ _ (by simp), uri_set_other _ _ _ _ (by simp)])
      · exact Or.inr h1
    · rcases parse_path_auth_build _ _ _ h with h1 | h1
      · exact Or.inl (by rw [h1, uri_set_other _ _ _ _ (by simp)])
      · exact Or.inr h1

theorem parse_authority_build (u u2 : uri_t) (w : List Char)
    (h : parse_authority u w = some u2) :
    u2.data BUILD = u.data BUILD ∨ u2.data BUILD = uri_build_string u2 := by
  simp only [parse_authority] at h
  cases hs : (scan authority_stop w).2 with
  | nil =>
    rw [hs] at h
    exact parse_host_build _ _ _ _ h
  | cons c cs =>
    rw [hs] at h
    by_cases hc : c = '@' <;> simp only [hc, if_true, if_false] at h
    · rcases parse_host_build _ _ _ _ h with h1 | h1
      · exact Or.inl (by rw [h1, uri_set_other _ _ _ _ (by simp)])
      · exact Or.inr h1
    · exact parse_host_build _ _ _ _ h

theorem uri_parse_list_build (l : List Char) (u2 : uri_t)
    (h : uri_parse_list l = some u2) :
    u2.data BUILD = none ∨ u2.data BUILD = uri_build_string u2 := by
  simp only [uri_parse_list] at h
  cases hs : (scan (fun c => c == ':') l).2 with
  | nil => rw [hs] at h; exact absurd h (by simp)
  | cons c rest =>
    rw [hs] at h
    simp only at h
    by_cases ht : rest.take 2 = ['/', '/'] <;> simp only [ht, if_true, if_false] at h
    · rcases parse_authority_build _ _ _ h with h1 | h1
      · exact Or.inl (by rw [h1, uri_set_other _ _ _ _ (by simp)]; rfl)
      · exact Or.inr h1
    · rcases parse_query_fragment_build _ _ _ h with h1 | h1
      · exact Or.inl (by
          rw [h1, uri_set_other _ _ _ _ (by simp), uri_set_other _ _ _ _ (by simp)]; rfl)
      · exact Or.inr h1

/-! Section: Success of every stage when the scheme slot is populated -/

theorem uri_build_some (u : uri_t) (x : String) (h : u.data SCHEME = some x) :
    ∃ u2, uri_build u = some u2 ∧ u2.data SCHEME = some x := by
  refine ⟨_, uri_build_eq u x h, ?_⟩
  rw [uri_set_other _ _ _ _ (by simp), h]

theorem parse_fragment_some (u : uri_t) (w : List Char) (x : String)
    (h : u.data SCHEME = some x) :
    ∃ u2, parse_fragment u w = some u2 ∧ u2.data SCHEME = some x := by
  cases w with
  | nil => exact uri_build_some u x h
  | cons d rest =>
    simp only [parse_fragment]
    by_cases hd : d = '#' <;> simp only [hd, if_true, if_false]
    · exact uri_build_some _ x (by rw [uri_set_other _ _ _ _ (by simp)]; exact h)
    · exact uri_build_some u x h

theorem parse_query_fragment_some (u : uri_t) (w : List Char) (x : String)
    (h : u.data SCHEME = some x) :
    ∃ u2, parse_query_fragment u w = some u2 ∧ u2.data SCHEME = some x := by
  cases w with
  | nil => exact ⟨u, rfl, h⟩
  | cons c rest =>
    simp only [parse_query_fragment]
    by_cases hc : c = '?' <;> simp only [hc, if_true, if_false]
    · exact parse_fragment_some _ _ x (by rw [uri_set_other _ _ _ _ (by simp)]; exact h)
    · exact parse_fragment_some u _ x h

theorem parse_path_auth_some (u : uri_t) (w : List Char) (x : String)
    (h : u.data SCHEME = some x) :
    ∃ u2, parse_path_auth u w = some u2 ∧ u2.data SCHEME = some x := by
  cases w with
  | nil => exact ⟨u, rfl, h⟩
  | cons c rest =>
    simp only [parse_path_auth]
    exact parse_query_fragment_some _ _ x (by rw [uri_set_other _ _ _ _ (by simp)]; exact h)

theorem parse_host_some (u : uri_t) (t w : List Char) (x : String)
    (h : u.data SCHEME = some x) :
    ∃ u2, parse_host u t w = some u2 ∧ u2.data SCHEME = some x := by
  have h1 : (uri_set u HOST (some (String.mk t))).data SCHEME = some x := by
    rw [uri_set_other _ _ _ _ (by simp)]; exact h
  cases w with
  | nil => exact ⟨_, rfl, h1⟩
  | cons c cs =>
    simp only [parse_host]
    by_cases hc : c = ':' <;> simp only [hc, if_true, if_false]
    · exact parse_path_auth_some _ _ x (by rw [uri_set_other _ _ _ _ (by simp)]; exact h1)
    · exact parse_path_auth_some _ _ x h1

theorem parse_authority_some (u : uri_t) (w : List Char) (x : String)
    (h : u.data SCHEME = some x) :
    ∃ u2, parse_authority u w = some u2 ∧ u2.data SCHEME = some x := by
  simp only [parse_authority]
  cases hs : (scan authority_stop w).2 with
  | nil => exact parse_host_some u _ [] x h
  | cons c cs =>
    by_cases hc : c = '@' <;> simp only [hc, if_true, if_false]
    · exact parse_host_some _ _ _ x (by rw [uri_set_other _ _ _ _ (by simp)]; exact h)
    · exact parse_host_some u _ _ x h

theorem uri_parse_list_some (l : List Char) (c : Char) (rest : List Char)
    (hs : (scan (fun d => d == ':') l).2 = c :: rest) :
    ∃ u2, uri_parse_list l = some u2 ∧
      u2.data SCHEME = some (String.mk (scan (fun d => d == ':') l).1) := by
  simp only [uri_parse_list, hs]
  have h0 : (uri_set uri_init SCHEME
      (some (String.mk (scan (fun d => d == ':') l).1))).data SCHEME
      = some (String.mk (scan (fun d => d == ':') l).1) := uri_set_same _ _ _
  by_cases ht : rest.take 2 = ['/', '/'] <;> simp only [ht, if_true, if_false]
  · exact parse_authority_some _ _ _ h0
  · exact parse_query_fragment_some _ _ _
      (by rw [uri_set_other _ _ _ _ (by simp)]; exact h0)

/-- Claim C2, counterexample: parsing `http://host` succeeds (the input
ends right after the host), yet the cached-build slot of the returned store is
absent — the parser returned early without triggering a build. -/
theorem C2_counterexample :
    parsed_slot (uri_parse "http://host") BUILD = some none := by decide

/-- Claim C2 (amended): for every input on which parse succeeds, the
cached-build slot of the returned store, when present, equals the canonical
string built from the semantic slots of the store; it is absent for successful
parses that reach end-of-input right after the host, the port, or the
path, because those paths return the store before the build runs. -/
theorem C2_amended (s : String) (u : uri_t) (h : uri_parse s = some u) :
    u.data BUILD = none ∨ u.data BUILD = uri_build_string u :=
  uri_parse_list_build s.data u h

/-- Witness for C2: the parse of `s://h/p?q` reaches the query section,
so the amended dichotomy applies to its store. -/
theorem C2_amended_witness :
    W2.data BUILD = none ∨ W2.data BUILD = uri_build_string W2 :=
  C2_amended "s://h/p?q" W2 rfl

/-- Claim C4: parse fails exactly when the input has no `:`; with at
least one `:` it succeeds and the scheme slot holds the text before the
first `:`. -/
theorem C4_parse_failure (s : String) :
    (uri_parse s = none ↔ ':' ∉ s.data) ∧
    (':' ∈ s.data →
      parsed_slot (uri_parse s) SCHEME
        = some (some (String.mk (s.data.takeWhile not_colon)))) := by
  have hiff : (scan (fun d => d == ':') s.data).2 = [] ↔ ':' ∉ s.data := by
    rw [scan_snd_nil_iff]
    constructor
    · intro hall hmem
      simpa using hall ':' hmem
    · intro hnot c hc
      have hne : c ≠ ':' := fun he => hnot (he ▸ hc)
      simpa using hne
  constructor
  · constructor
    · intro hnone
      cases hs : (scan (fun d => d == ':') s.data).2 with
      | nil => exact hiff.mp hs
      | cons c rest =>
        obtain ⟨u2, hu2, _⟩ := uri_parse_list_some s.data c rest hs
        have : uri_parse s = some u2 := hu2
        rw [this] at hnone
        cases hnone
    · intro hnot
      show uri_parse_list s.data = none
      simp only [uri_parse_list, hiff.mpr hnot]
  · intro hmem
    cases hs : (scan (fun d => d == ':') s.data).2 with
    | nil => exact absurd (hiff.mp hs) (by simp [hmem])
    | cons c rest =>
      obtain ⟨u2, hu2, hsch⟩ := uri_parse_list_some s.data c rest hs
      show parsed_slot (uri_parse_list s.data) SCHEME = _
      rw [hu2]
      simp only [parsed_slot]
      rw [hsch, scan_fst_takeWhile]
      rfl

/-- Witness for C4: `noColonHere` fails to parse; `:` parses with an
empty scheme. -/
theorem C4_witness :
    uri_parse "noColonHere" = none ∧
    parsed_slot (uri_parse ":") SCHEME = some (some "") := by
  constructor
  · exact (C4_parse_failure "noColonHere").1.mpr (by decide)
  · exact (C4_parse_failure ":").2 (by decide)

/-! Section: String data lemmas for the separator literals -/

theorem data_mk (l : List Char) : (String.mk l).data = l := rfl

theorem data_colon : (":" : String).data = [':'] := rfl

theorem data_slashes : ("//" : String).data = ['/', '/'] := rfl

theorem data_at : ("@" : String).data = ['@'] := rfl

theorem data_qmark : ("?" : String).data = ['?'] := rfl

theorem data_hash : ("#" : String).data = ['#'] := rfl

theorem data_empty : ("" : String).data = [] := rfl

/-- Claim C3: for every store whose scheme slot is present, the builder
emits exactly scheme, `:`, then (only if host is present) `//`,
userinfo + `@` when present, host, `:` + port when present, then the path
verbatim, then `?` + query and `#` + fragment when present, each piece
only when its governing slot is present, in this fixed order
(`canonical_spec` transcribes the concatenation rules of the spec). -/
theorem C3_build_format (u : uri_t) (sch : String) (h : u.data SCHEME = some sch) :
    uri_build_string u = some (canonical_spec sch u) := by
  simp only [uri_build_string, h]
  refine congrArg some (str_ext _ _ ?_)
  simp only [build_from, canonical_spec]
  rcases hH : u.data HOST with _ | hv <;>
    rcases hU : u.data USERINFO with _ | uv <;>
      rcases hP : u.data PORT with _ | pv <;>
        rcases hPa : u.data PATH with _ | av <;>
          rcases hQ : u.data QUERY with _ | qv <;>
            rcases hF : u.data FRAGMENT with _ | fv <;>
              simp [hH, hU, hP, hPa, hQ, hF, str_data_append, data_colon, data_slashes,
                data_at, data_qmark, data_hash, data_empty, List.append_assoc]

/-- Witness for C3: a store with all seven slots present builds
`s://u@h:1p?q#fr` — note the path `p` is emitted verbatim with no `/`
inserted. -/
theorem C3_build_format_witness :
    uri_build_string Wfull = some (canonical_spec "s" Wfull)
    ∧ canonical_spec "s" Wfull = "s://u@h:1p?q#fr" :=
  ⟨C3_build_format Wfull "s" rfl, by decide⟩

/-- Claim C5, code evaluation at the failing input: in non-authority mode
the path scan stops at the first `/` (uri.h line 261), so parsing
`a:b/c?q` stores only `b` as the path, recognises no query or fragment,
and silently drops `/c?q` (the canonical string rebuilds as `a:b`).  The
claim (and spec steps 2 and 6) say the path should run to the first `?`,
`#` or end, i.e. `b/c`, with query `q` recognised after it. -/
theorem C5_code_eval :
    parsed_slot (uri_parse "a:b/c?q") PATH = some (some "b")
    ∧ parsed_slot (uri_parse "a:b/c?q") QUERY = some none
    ∧ parsed_slot (uri_parse "a:b/c?q") FRAGMENT = some none
    ∧ (uri_parse "a:b/c?q").bind canonicalString = some "a:b" := by decide

/-- Claim C6, counterexample: the stored query and fragment of
`http://user@host:80/path?q#f` are not the delimiter-free `q` and `f`. -/
theorem C6_counterexample :
    ¬ (parsed_slot (uri_parse "http://user@host:80/path?q#f") QUERY = some (some "q")
       ∧ parsed_slot (uri_parse "http://user@host:80/path?q#f") FRAGMENT = some (some "f")) := by
  decide

/-- Claim C6 (amended): parsing `http://user@host:80/path?q#f` populates
userinfo `user`, host `host`, port `80`, path `/path`, and stores the
query as `?q` and the fragment as `#f` — the leading `?` and `#`
delimiters are retained in the stored values (`copy_substring` starts at
the delimiter, uri.h lines 280 and 292). -/
theorem C6_amended :
    parsed_slot (uri_parse "http://user@host:80/path?q#f") SCHEME = some (some "http")
    ∧ parsed_slot (uri_parse "http://user@host:80/path?q#f") USERINFO = some (some "user")
    ∧ parsed_slot (uri_parse "http://user@host:80/path?q#f") HOST = some (some "host")
    ∧ parsed_slot (uri_parse "http://user@host:80/path?q#f") PORT = some (some "80")
    ∧ parsed_slot (uri_parse "http://user@host:80/path?q#f") PATH = some (some "/path")
    ∧ parsed_slot (uri_parse "http://user@host:80/path?q#f") QUERY = some (some "?q")
    ∧ parsed_slot (uri_parse "http://user@host:80/path?q#f") FRAGMENT = some (some "#f") := by
  decide

/-- Claim C7, counterexample: `parse("http://a/b")` reaches end-of-input
right after the path and returns early without building, so the cache slot
is absent and `print` after `set(store, Path, "/c")` emits nothing — not a
cached string containing `/b`. -/
theorem C7_counterexample :
    uri_parse "http://a/b" = some store_ab
    ∧ uri_print_out (uri_set store_ab PATH (some "/c")) = none := ⟨rfl, rfl⟩

/-- Claim C7 (amended): `parse("http://a/b")` returns a store with no
cached canonical string (the parser early-returns before building); after
`set(store, Path, "/c")` a `print` emits nothing, and only an explicit
`canonicalString` call produces output reflecting `/c`, namely
`http://a/c`. -/
theorem C7_amended :
    uri_parse "http://a/b" = some store_ab
    ∧ store_ab.data BUILD = none
    ∧ uri_print_out store_ac = none
    ∧ canonicalString store_ac = some "http://a/c" :=
  ⟨rfl, rfl, rfl, by decide⟩

/-- Claim C8: `set` writes the named slot and leaves every other slot,
the cache slot included, unchanged; `remove` returns the former value and
clears only the named slot; `uri_get` (canonicalString) performs a fresh
rebuild, rewriting only the cache slot and leaving the semantic slots
unchanged. -/
theorem C8_frame (u : uri_t) (e e2 : uri_element_t) (v : Option String) (s : String)
    (hB : e ≠ BUILD) (hne : e2 ≠ e) :
    (uri_set u e v).data e = v
    ∧ (uri_set u e v).data e2 = u.data e2
    ∧ (uri_set u e v).data BUILD = u.data BUILD
    ∧ (uri_remove u e).1 = u.data e
    ∧ (uri_remove u e).2.data e = none
    ∧ (uri_remove u e).2.data e2 = u.data e2
    ∧ (uri_remove u e).2.data BUILD = u.data BUILD
    ∧ (uri_build_string u = some s →
        uri_get u = some (s, uri_set u BUILD (some s))
        ∧ (uri_set u BUILD (some s)).data e = u.data e) := by
  refine ⟨uri_set_same u e v, uri_set_other u e v e2 hne,
    uri_set_other u e v BUILD (Ne.symm hB), rfl, uri_set_same u e none,
    uri_set_other u e none e2 hne, uri_set_other u e none BUILD (Ne.symm hB), ?_⟩
  intro hs
  constructor
  · unfold uri_get uri_build
    rw [hs]
    simp [uri_set_same]
  · exact uri_set_other u BUILD (some s) e hB

/-- Witness for C8: on a store parsed from scheme `a` and path `/b`, a
`set` of HOST leaves the cache slot alone, and `uri_get` rebuilds and
returns `a:/b` while writing it into the cache slot. -/
theorem C8_frame_witness :
    (uri_set W8 HOST (some "h")).data BUILD = W8.data BUILD
    ∧ uri_get W8 = some ("a:/b", uri_set W8 BUILD (some "a:/b")) := by
  have h := C8_frame W8 HOST PATH (some "h") "a:/b" (by decide) (by decide)
  exact ⟨h.2.2.1, (h.2.2.2.2.2.2.2 rfl).1⟩

/-- Claim C9: parsing `http://host?q` and requesting the canonical string
returns exactly `http://host?q` — no `/` is inserted before the `?` — and
not the conventional normalized form `http://host/?q`. -/
theorem C9_missing_path_gap :
    (uri_parse "http://host?q").bind canonicalString = some "http://host?q"
    ∧ (uri_parse "http://host?q").bind canonicalString ≠ some "http://host/?q" := by
  decide

/-- Claim C10: the builder (and hence `uri_get`, which always invokes it)
succeeds exactly when the scheme slot is present; with the scheme absent
the unguarded read of the scheme slot has no defined result, modelled as
`none`. -/
theorem C10_build_totality (u : uri_t) :
    ((uri_build_string u).isSome ↔ (u.data SCHEME).isSome)
    ∧ ((uri_get u).isSome ↔ (u.data SCHEME).isSome) := by
  cases h : u.data SCHEME with
  | none => simp [uri_build_string, uri_get, uri_build, h]
  | some x =>
    refine ⟨by simp [uri_build_string, h], ?_⟩
    have hb := uri_build_eq u x h
    simp [uri_get, hb, uri_set_same]

/-- Claim C1, counterexample: `http://host/p?q#f` parses with scheme,
host, path, query and fragment all present and a non-empty path, yet the
canonical string is `http://host/p??q##f`, not the input: the parser
stores the `?`/`#` delimiters inside the query/fragment values and the
builder prepends them again. -/
theorem C1_counterexample :
    parsed_slot (uri_parse "http://host/p?q#f") SCHEME = some (some "http")
    ∧ parsed_slot (uri_parse "http://host/p?q#f") HOST = some (some "host")
    ∧ parsed_slot (uri_parse "http://host/p?q#f") PATH = some (some "/p")
    ∧ parsed_slot (uri_parse "http://host/p?q#f") QUERY = some (some "?q")
    ∧ parsed_slot (uri_parse "http://host/p?q#f") FRAGMENT = some (some "#f")
    ∧ (uri_parse "http://host/p?q#f").bind canonicalString = some "http://host/p??q##f"
    ∧ (uri_parse "http://host/p?q#f").bind canonicalString ≠ some "http://host/p?q#f" := by
  decide

/-- Building and then requesting the canonical string yields the freshly
built string: the rebuild inside `uri_get` reads only semantic slots, so
it reproduces the string the parser just cached. -/
theorem bind_build_canonical (u : uri_t) (x : String) (h : u.data SCHEME = some x) :
    (uri_build u).bind canonicalString = some (build_from x u) := by
  rw [uri_build_eq u x h]
  show canonicalString (uri_set u BUILD (some (build_from x u))) = some (build_from x u)
  have h2 : (uri_set u BUILD (some (build_from x u))).data SCHEME = some x := by
    rw [uri_set_other _ _ _ _ (by simp)]; exact h
  unfold canonicalString uri_get
  rw [uri_build_eq _ x h2, build_from_set_build]
  simp [uri_set_same]

/-- Claim C1 (amended): for every well-formed URI string of the shape
scheme `:` `//` host `/` path `?` query `#` fragment — scheme free of
`:`, host free of `@`, `:` and `/`, path free of `?` and `#`, query free
of `#` — parsing and then requesting the canonical string returns the
input with the query and fragment delimiters doubled (`?` becomes `??`
and `#` becomes `##`), because the parser stores the delimiters inside
the query and fragment values and the builder prepends them again. -/
theorem C1_amended (sch hst p q f : List Char)
    (hsch : ∀ c ∈ sch, (c == ':') = false)
    (hh : ∀ c ∈ hst, authority_stop c = false)
    (hp : ∀ c ∈ p, path_stop c = false)
    (hq : ∀ c ∈ q, query_stop c = false) :
    (uri_parse (String.mk (sch ++ ':' :: '/' :: '/' ::
        (hst ++ '/' :: (p ++ '?' :: (q ++ '#' :: f)))))).bind canonicalString
      = some (String.mk (sch ++ ':' :: '/' :: '/' ::
        (hst ++ '/' :: (p ++ '?' :: '?' :: (q ++ '#' :: '#' :: f))))) := by
  have hp2 : ∀ x ∈ '/' :: p, path_stop x = false := by
    intro x hx
    rcases List.mem_cons.mp hx with h1 | h1
    · rw [h1]; rfl
    · exact hp x h1
  have hq2 : ∀ x ∈ '?' :: q, query_stop x = false := by
    intro x hx
    rcases List.mem_cons.mp hx with h1 | h1
    · rw [h1]; rfl
    · exact hq x h1
  have e1 : scan (fun c => c == ':')
      (sch ++ ':' :: '/' :: '/' :: (hst ++ '/' :: (p ++ '?' :: (q ++ '#' :: f))))
      = (sch, ':' :: '/' :: '/' :: (hst ++ '/' :: (p ++ '?' :: (q ++ '#' :: f)))) :=
    scan_append_stop (fun c => c == ':') ':'
      ('/' :: '/' :: (hst ++ '/' :: (p ++ '?' :: (q ++ '#' :: f)))) sch hsch (by decide)
  have e2 : scan authority_stop (hst ++ '/' :: (p ++ '?' :: (q ++ '#' :: f)))
      = (hst, '/' :: (p ++ '?' :: (q ++ '#' :: f))) :=
    scan_append_stop authority_stop '/' (p ++ '?' :: (q ++ '#' :: f)) hst hh (by decide)
  have e3 : scan path_stop ('/' :: (p ++ '?' :: (q ++ '#' :: f)))
      = ('/' :: p, '?' :: (q ++ '#' :: f)) := by
    have h0 := scan_append_stop path_stop '?' (q ++ '#' :: f) ('/' :: p) hp2 (by decide)
    simpa using h0
  have e4 : scan query_stop ('?' :: (q ++ '#' :: f)) = ('?' :: q, '#' :: f) := by
    have h0 := scan_append_stop query_stop '#' f ('?' :: q) hq2 (by decide)
    simpa using h0
  have hparse : uri_parse_list (sch ++ ':' :: '/' :: '/' ::
      (hst ++ '/' :: (p ++ '?' :: (q ++ '#' :: f))))
      = uri_build (uri_set (uri_set (uri_set (uri_set (uri_set uri_init
          SCHEME (some (String.mk sch))) HOST (some (String.mk hst)))
          PATH (some (String.mk ('/' :: p)))) QUERY (some (String.mk ('?' :: q))))
          FRAGMENT (some (String.mk ('#' :: f)))) := by
    simp [uri_parse_list, parse_authority, parse_host, parse_path_auth,
      parse_query_fragment, parse_fragment, e1, e2, e3, e4]
  show (uri_parse_list (sch ++ ':' :: '/' :: '/' ::
      (hst ++ '/' :: (p ++ '?' :: (q ++ '#' :: f))))).bind canonicalString = _
  rw [hparse, bind_build_canonical _ (String.mk sch) rfl]
  refine congrArg some (str_ext _ _ ?_)
  simp [build_from, uri_set_data, uri_init, str_data_append, data_mk, data_colon,
    data_slashes, data_qmark, data_hash, List.append_assoc]

/-- Witness for C1: parsing `http://a/p?q#f` and requesting the canonical
string returns `http://a/p??q##f`, the input with both delimiters
doubled. -/
theorem C1_amended_witness :
    (uri_parse "http://a/p?q#f").bind canonicalString = some "http://a/p??q##f" := by
  have h := C1_amended ['h', 't', 't', 'p'] ['a'] ['p'] ['q'] ['f']
    (by decide) (by decide) (by decide) (by decide)
  exact h
